import Mathlib

/-!
Verification of the clawup identity-resolution and manifest-reconciliation
engine against its natural-language specification.

JavaScript objects (`Record<string, T>`) are embedded as association lists
with first-match lookup; spread merge `\x7b ...a, ...b \x7d` is embedded as a
key-by-key insertion of `b`'s entries into `a` (later entries overwrite the
value in place, new keys are appended), which matches JS object-spread
semantics for string keys.
-/

set_option autoImplicit false

namespace Clawup

universe u

/-- A JS object with string keys: an association list, first match wins. -/
abbrev Dict (V : Type u) : Type u := List (String × V)

/-- `d[k]` — first-match lookup. -/
def dget {V : Type u} : Dict V → String → Option V
  | [], _ => none
  | (k', v) :: rest, k => if k' = k then some v else dget rest k

/-- `d[k] = v` — replace the value in place if the key exists, else append. -/
def dinsert {V : Type u} : Dict V → String → V → Dict V
  | [], k, v => [(k, v)]
  | (k', v') :: rest, k, v =>
    if k' = k then (k, v) :: rest else (k', v') :: dinsert rest k v

/-- JS object spread `\x7b ...a, ...b \x7d`: every entry of `b` is inserted into `a`. -/
def dmerge {V : Type u} (a b : Dict V) : Dict V :=
  b.foldl (fun acc kv => dinsert acc kv.1 kv.2) a

/-- The keys of a dict in order. -/
def dkeys {V : Type u} (d : Dict V) : List String := d.map Prod.fst

/-- JS truthiness of a possibly-absent string value: present and non-empty. -/
def truthyStr : Option String → Bool
  | some v => v ≠ ""
  | none => false

theorem dget_dinsert_self {V : Type u} (d : Dict V) (k : String) (v : V) :
    dget (dinsert d k v) k = some v := by
  induction d with
  | nil => simp [dinsert, dget]
  | cons kv rest ih =>
    obtain ⟨k', v'⟩ := kv
    by_cases h : k' = k
    · simp [dinsert, h, dget]
    · simp [dinsert, h, dget, ih]

theorem dget_dinsert_ne {V : Type u} (d : Dict V) (k k' : String) (v : V) (h : k ≠ k') :
    dget (dinsert d k v) k' = dget d k' := by
  induction d with
  | nil => simp [dinsert, dget, h]
  | cons kv rest ih =>
    obtain ⟨k₀, v₀⟩ := kv
    by_cases h₀ : k₀ = k
    · subst h₀
      simp [dinsert, dget, h, Ne.symm h]
    · simp [dinsert, h₀, dget, ih]

theorem dget_eq_none_of_not_mem {V : Type u} (d : Dict V) (k : String)
    (h : k ∉ dkeys d) : dget d k = none := by
  induction d with
  | nil => simp [dget]
  | cons kv rest ih =>
    obtain ⟨k', v'⟩ := kv
    simp only [dkeys, List.map_cons, List.mem_cons] at h
    push_neg at h
    have h1 : ¬ k' = k := fun hh => h.1 hh.symm
    simp [dget, h1, ih (by simpa [dkeys] using h.2)]

/-- Spread merge: a key absent from `b` keeps its value from `a`. -/
theorem dget_dmerge_of_none {V : Type u} (a b : Dict V) (k : String)
    (h : dget b k = none) : dget (dmerge a b) k = dget a k := by
  induction b generalizing a with
  | nil => rfl
  | cons kv rest ih =>
    obtain ⟨k₀, v₀⟩ := kv
    simp only [dget] at h
    by_cases h₀ : k₀ = k
    · simp [h₀] at h
    · simp only [dmerge, List.foldl_cons] at *
      rw [ih (dinsert a k₀ v₀) (by simpa [h₀] using h)]
      exact dget_dinsert_ne a k₀ k v₀ h₀

/-- Spread merge: on a key conflict the value from `b` (the later spread) wins,
provided `b` binds the key once. -/
theorem dget_dmerge_of_some {V : Type u} (a b : Dict V) (k : String) (v : V)
    (hnd : (dkeys b).Nodup) (h : dget b k = some v) :
    dget (dmerge a b) k = some v := by
  induction b generalizing a with
  | nil => simp [dget] at h
  | cons kv rest ih =>
    obtain ⟨k₀, v₀⟩ := kv
    simp only [dkeys, List.map_cons, List.nodup_cons] at hnd
    simp only [dget] at h
    by_cases h₀ : k₀ = k
    · subst h₀
      simp only [if_true, eq_self_iff_true, Option.some.injEq, if_pos] at h
      subst h
      simp only [dmerge, List.foldl_cons]
      have hrest : dget rest k₀ = none :=
        dget_eq_none_of_not_mem rest k₀ (by simpa [dkeys] using hnd.1)
      show dget (dmerge (dinsert a k₀ v₀) rest) k₀ = some v₀
      rw [dget_dmerge_of_none (dinsert a k₀ v₀) rest k₀ hrest]
      exact dget_dinsert_self a k₀ v₀
    · simp only [if_neg h₀] at h
      simp only [dmerge, List.foldl_cons]
      exact ih (dinsert a k₀ v₀) (by simpa [dkeys] using hnd.2) h

/-! ## Data model (from packages/core types as used by the CLI) -/

/-- One entry of a deployment manifest (`AgentDefinition` in `@clawup/core`). -/
structure AgentDef where
  name : String
  displayName : String
  role : String
  identity : String
  volumeSize : Nat
  secrets : Dict String := []
  plugins : Dict (Dict String) := []
  envVars : Dict String := []
  deriving DecidableEq, Repr

/-- An identity's manifest (`IdentityManifest` in `@clawup/core`), restricted to
the fields the reconciliation engine reads. -/
structure IdentityManifest where
  name : String
  displayName : String
  role : String
  templateVars : List String := []
  plugins : List String := []
  deps : List String := []
  pluginDefaults : Dict (Dict String) := []
  requiredSecrets : List String := []
  deriving DecidableEq, Repr

/-- The persisted deployment manifest (`ClawupManifest` in `@clawup/core`). -/
structure ClawupManifest where
  stackName : String
  provider : String
  region : String
  instanceType : String
  ownerName : String
  timezone : Option String := none
  workingHours : Option String := none
  userNotes : Option String := none
  templateVars : Dict String := []
  secrets : Dict String := []
  agents : List AgentDef
  deriving DecidableEq, Repr

/-- The result of fetching one identity source (`DiscoveredIdentity`). -/
structure DiscoveredIdentity where
  relPath : String
  manifest : IdentityManifest
  deriving DecidableEq, Repr

/-! ## ManifestWriter merges (setup.ts §5/§8 and writeManifest in the init command)

`setup.ts` line 211: `mergedGlobalSecrets = \x7b ...(manifest.secrets ?? \x7b\x7d), ...expectedSecrets.global \x7d`
`setup.ts` line 215 / writeManifest line 1181: `agent.secrets = \x7b ...(agent.secrets ?? \x7b\x7d), ...expected \x7d`
writeManifest lines 1196-1204: `inlinePlugins[pluginName] = \x7b ...pluginDefaults, ...existingConfig, agentId \x7d`
-/

/-- Merge of freshly computed global secret env refs into the persisted
`manifest.secrets` (setup.ts step 5 / writeManifest). -/
def mergeGlobalSecrets (prior fresh : Dict String) : Dict String :=
  dmerge prior fresh

/-- Merge of freshly computed per-agent secret env refs into an agent's
persisted `secrets` map (setup.ts step 5 / writeManifest). -/
def mergeAgentSecrets (prior fresh : Dict String) : Dict String :=
  dmerge prior fresh

/-- Inline plugin config for one plugin in writeManifest: identity defaults,
overridden key-by-key by the existing (prior) config, with `agentId` forced. -/
def inlinePluginConfig (agentName : String) (pluginDefaults existingConfig : Dict String) :
    Dict String :=
  dinsert (dmerge pluginDefaults existingConfig) "agentId" agentName

/-- C1 counterexample: in the secrets merge the freshly computed default
overwrites a prior persisted value on a key conflict — the prior value does
not win.  Prior user edit `anthropicApiKey = user-custom-value` is replaced by
the freshly computed env reference. -/
theorem spec_C1_counterexample :
    dget (mergeGlobalSecrets
        [("anthropicApiKey", "user-custom-value")]
        [("anthropicApiKey", "fresh-env-ref")]) "anthropicApiKey"
      = some "fresh-env-ref" ∧
    dget (mergeGlobalSecrets
        [("anthropicApiKey", "user-custom-value")]
        [("anthropicApiKey", "fresh-env-ref")]) "anthropicApiKey"
      ≠ some "user-custom-value" := by
  constructor
  · rfl
  · decide

/-- C1 amended: the manifest merge is key-by-key and never replaces a whole
object — a prior key absent from the fresh map is kept, and a fresh key absent
from the prior map is added — but on a key conflict in the global or per-agent
secret maps the freshly computed value wins over the prior persisted value;
only per-agent plugin config gives the prior value precedence over the freshly
computed default (with `agentId` always forced). -/
theorem spec_C1_amended (prior fresh : Dict String) (k : String)
    (hnd : (dkeys fresh).Nodup) :
    (dget fresh k = none → dget (mergeGlobalSecrets prior fresh) k = dget prior k) ∧
    (dget fresh k = none → dget (mergeAgentSecrets prior fresh) k = dget prior k) ∧
    (∀ v, dget fresh k = some v → dget (mergeGlobalSecrets prior fresh) k = some v) ∧
    (∀ v, dget fresh k = some v → dget (mergeAgentSecrets prior fresh) k = some v) ∧
    (∀ (agentName : String) (defaults existing : Dict String),
      (dkeys existing).Nodup → k ≠ "agentId" →
      ∀ v, dget existing k = some v →
        dget (inlinePluginConfig agentName defaults existing) k = some v) ∧
    (∀ (agentName : String) (defaults existing : Dict String),
        dget (inlinePluginConfig agentName defaults existing) "agentId" = some agentName) := by
  refine ⟨fun h => dget_dmerge_of_none prior fresh k h,
    fun h => dget_dmerge_of_none prior fresh k h,
    fun v h => dget_dmerge_of_some prior fresh k v hnd h,
    fun v h => dget_dmerge_of_some prior fresh k v hnd h,
    fun agentName defaults existing hex hk v hv => ?_,
    fun agentName defaults existing => dget_dinsert_self _ _ _⟩
  unfold inlinePluginConfig
  rw [dget_dinsert_ne _ _ _ _ (fun h => hk h.symm)]
  exact dget_dmerge_of_some defaults existing k v hex hv

/-- C1 witness: the amended merge discipline at concrete inputs. -/
theorem spec_C1_witness :
    (dget ([("linearApiKey", "fresh-ref")] : Dict String) "userEdited" = none →
      dget (mergeGlobalSecrets [("userEdited", "kept")] [("linearApiKey", "fresh-ref")])
        "userEdited" = dget [("userEdited", "kept")] "userEdited") ∧
    (dget ([("linearApiKey", "fresh-ref")] : Dict String) "userEdited" = none →
      dget (mergeAgentSecrets [("userEdited", "kept")] [("linearApiKey", "fresh-ref")])
        "userEdited" = dget [("userEdited", "kept")] "userEdited") ∧
    (∀ v, dget ([("linearApiKey", "fresh-ref")] : Dict String) "userEdited" = some v →
      dget (mergeGlobalSecrets [("userEdited", "kept")] [("linearApiKey", "fresh-ref")])
        "userEdited" = some v) ∧
    (∀ v, dget ([("linearApiKey", "fresh-ref")] : Dict String) "userEdited" = some v →
      dget (mergeAgentSecrets [("userEdited", "kept")] [("linearApiKey", "fresh-ref")])
        "userEdited" = some v) ∧
    (∀ (agentName : String) (defaults existing : Dict String),
      (dkeys existing).Nodup → "userEdited" ≠ "agentId" →
      ∀ v, dget existing "userEdited" = some v →
        dget (inlinePluginConfig agentName defaults existing) "userEdited" = some v) ∧
    (∀ (agentName : String) (defaults existing : Dict String),
        dget (inlinePluginConfig agentName defaults existing) "agentId" = some agentName) :=
  spec_C1_amended [("userEdited", "kept")] [("linearApiKey", "fresh-ref")] "userEdited"
    (by decide)

/-! ## SecretsResolver: requiredSecrets emission (setup.ts step 8, lines 368-389)
and the shared plugin registry. -/

/-- One entry of the shared plugin registry. -/
structure PluginRegistryEntry where
  secretEnvVars : Dict String
  installable : Bool
  needsFunnel : Bool := false
  deriving DecidableEq, Repr

/-- The shared plugin registry (`PLUGIN_REGISTRY`). -/
def PLUGIN_REGISTRY : Dict PluginRegistryEntry :=
  [("openclaw-linear",
    { secretEnvVars := [("apiKey", "LINEAR_API_KEY"), ("webhookSecret", "LINEAR_WEBHOOK_SECRET")]
      installable := true
      needsFunnel := true }),
   ("slack",
    { secretEnvVars := [("botToken", "SLACK_BOT_TOKEN"), ("appToken", "SLACK_APP_TOKEN")]
      installable := false })]

/-- Modelled from the spec: `camelToScreamingSnake` lives in
`packages/cli/lib/env.ts`, which is not under src/; the spec describes the
conversion as "screaming-snake-cased key" — an underscore is inserted before
each uppercase letter and the whole string is uppercased
(`linearApiKey → LINEAR_API_KEY`). -/
def camelToScreamingSnake (s : String) : String :=
  String.mk (s.data.foldr
    (fun c acc => if c.isUpper then '_' :: c :: acc else c.toUpper :: acc) [])

/-- JS `role.toUpperCase()` (setup.ts line 374), modelled character-wise. -/
def roleUpper (role : String) : String := String.mk (role.data.map Char.toUpper)

/-- The environment variable name for an agent-scope required secret:
uppercased role, underscore, screaming-snake-cased key (setup.ts line 387). -/
def agentSecretEnvVar (role key : String) : String :=
  roleUpper role ++ "_" ++ camelToScreamingSnake key

/-- The env reference written into the manifest for an agent-scope required
secret (setup.ts line 387). -/
def agentSecretEnvRef (role key : String) : String :=
  "$\x7benv:" ++ agentSecretEnvVar role key ++ "\x7d"

/-- setup.ts lines 380-385: a required secret key is already covered by a
plugin or dependency registry mapping for a plugin/dependency enabled on the
agent. -/
def alreadyCovered (key : String) (plugins deps : List String) : Bool :=
  (key == "slackBotToken" && plugins.contains "slack") ||
  (key == "slackAppToken" && plugins.contains "slack") ||
  (key == "linearApiKey" && plugins.contains "openclaw-linear") ||
  (key == "linearWebhookSecret" && plugins.contains "openclaw-linear") ||
  (key == "githubToken" && deps.contains "gh")

/-- Modelled from the spec: the registry-to-manifest key correspondence lives
in `packages/cli/lib/env.ts` (`buildManifestSecrets`), which is not under
src/; per §4.5 each plugin registry entry declares the per-agent secret keys
it covers (`openclaw-linear → linearApiKey, linearWebhookSecret`;
`slack → slackBotToken, slackAppToken`). -/
def pluginRegistrySecretKeys (plugin : String) : List String :=
  if plugin = "openclaw-linear" then ["linearApiKey", "linearWebhookSecret"]
  else if plugin = "slack" then ["slackBotToken", "slackAppToken"]
  else []

/-- Modelled from the spec: the dependency registry (`lib/env.ts`, not under
src/) maps the `gh` dependency to the `githubToken` secret key. -/
def depRegistrySecretKeys (dep : String) : List String :=
  if dep = "gh" then ["githubToken"] else []

/-- setup.ts lines 376-388: the loop adding requiredSecrets-derived env refs
to an agent's secrets map, skipping keys that already have a truthy value and
keys already covered by a plugin/dependency registry mapping. -/
def addRequiredSecretRefs (role : String) (secrets : Dict String)
    (requiredSecrets : List String) (plugins deps : List String) : Dict String :=
  requiredSecrets.foldl
    (fun sec key =>
      if truthyStr (dget sec key) then sec
      else if alreadyCovered key plugins deps then sec
      else dinsert sec key (agentSecretEnvRef role key))
    secrets

theorem addRequiredSecretRefs_covered (role : String) (secrets : Dict String)
    (req : List String) (plugins deps : List String) (key : String)
    (hcov : alreadyCovered key plugins deps = true) :
    dget (addRequiredSecretRefs role secrets req plugins deps) key = dget secrets key := by
  induction req generalizing secrets with
  | nil => rfl
  | cons k₀ rest ih =>
    show dget (addRequiredSecretRefs role _ rest plugins deps) key = _
    by_cases ht : truthyStr (dget secrets k₀) = true
    · simpa [addRequiredSecretRefs, ht] using ih secrets
    · by_cases hc : alreadyCovered k₀ plugins deps = true
      · simp only [addRequiredSecretRefs, List.foldl_cons, ht, hc, if_true, if_false,
          Bool.not_eq_true] at *
        simpa [ht] using ih secrets
      · by_cases hk : k₀ = key
        · subst hk
          exact absurd hcov hc
        · simp only [addRequiredSecretRefs, List.foldl_cons] at *
          rw [if_neg ht, if_neg hc]
          rw [ih (dinsert secrets k₀ (agentSecretEnvRef role k₀))]
          exact dget_dinsert_ne secrets k₀ key _ hk

/-- C2: a secret key covered by a plugin or dependency registry mapping for a
plugin/dependency enabled on the agent is never emitted by the generic
requiredSecrets path — the agent's secrets entry for that key is exactly what
it was before the loop, so the value is never also requested under the
role-namespaced generic env var name. -/
theorem spec_C2 (role : String) (secrets : Dict String) (req : List String)
    (plugins deps : List String) (key : String)
    (hcov : (∃ pl ∈ plugins, key ∈ pluginRegistrySecretKeys pl) ∨
            (∃ d ∈ deps, key ∈ depRegistrySecretKeys d)) :
    dget (addRequiredSecretRefs role secrets req plugins deps) key = dget secrets key := by
  apply addRequiredSecretRefs_covered
  rcases hcov with ⟨pl, hpl, hkey⟩ | ⟨d, hd, hkey⟩
  · by_cases hlin : pl = "openclaw-linear"
    · subst hlin
      simp [pluginRegistrySecretKeys] at hkey
      rcases hkey with rfl | rfl <;> simp [alreadyCovered, hpl]
    · by_cases hsl : pl = "slack"
      · subst hsl
        simp [pluginRegistrySecretKeys] at hkey
        rcases hkey with rfl | rfl <;> simp [alreadyCovered, hpl]
      · simp [pluginRegistrySecretKeys, hlin, hsl] at hkey
  · by_cases hgh : d = "gh"
    · subst hgh
      simp [depRegistrySecretKeys] at hkey
      subst hkey
      simp [alreadyCovered, hd]
    · simp [depRegistrySecretKeys, hgh] at hkey

/-- C2 witness: `linearApiKey` is covered by the `openclaw-linear` registry
mapping, so for an agent with that plugin enabled the generic requiredSecrets
path adds nothing for it. -/
theorem spec_C2_witness :
    ((∃ pl ∈ ["openclaw-linear"], "linearApiKey" ∈ pluginRegistrySecretKeys pl) ∨
     (∃ d ∈ ["gh"], "linearApiKey" ∈ depRegistrySecretKeys d)) ∧
    dget (addRequiredSecretRefs "eng" [] ["linearApiKey"] ["openclaw-linear"] ["gh"])
        "linearApiKey"
      = dget ([] : Dict String) "linearApiKey" :=
  ⟨Or.inl ⟨"openclaw-linear", by decide, by decide⟩,
   spec_C2 "eng" [] ["linearApiKey"] ["openclaw-linear"] ["gh"] "linearApiKey"
     (Or.inl ⟨"openclaw-linear", by decide, by decide⟩)⟩

/-! ## C9: the env var naming of requiredSecrets-derived entries -/

theorem string_append_right_cancel (a b c : String) (h : a ++ c = b ++ c) : a = b := by
  apply String.ext
  have hd : a.data ++ c.data = b.data ++ c.data := by
    have := congrArg String.data h
    simpa [String.data_append] using this
  exact List.append_cancel_right hd

theorem string_append_left_cancel (a b c : String) (h : c ++ a = c ++ b) : a = b := by
  apply String.ext
  have hd : c.data ++ a.data = c.data ++ b.data := by
    have := congrArg String.data h
    simpa [String.data_append] using this
  exact List.append_cancel_left hd

theorem agentSecretEnvRef_ne_empty (role key : String) :
    agentSecretEnvRef role key ≠ "" := by
  intro h
  have hlen := congrArg String.length h
  simp only [agentSecretEnvRef, String.length_append] at hlen
  have e1 : ("$\x7benv:" : String).length = 6 := rfl
  have e2 : ("\x7d" : String).length = 1 := rfl
  have e3 : ("" : String).length = 0 := rfl
  rw [e1, e2, e3] at hlen
  omega

theorem agentSecretEnvVar_inj (r₁ r₂ key : String)
    (h : agentSecretEnvVar r₁ key = agentSecretEnvVar r₂ key) :
    roleUpper r₁ = roleUpper r₂ := by
  unfold agentSecretEnvVar at h
  exact string_append_right_cancel _ _ _
    (string_append_right_cancel _ _ _ (by simpa [String.append_assoc] using h))

theorem agentSecretEnvRef_inj (r₁ r₂ key : String)
    (h : agentSecretEnvRef r₁ key = agentSecretEnvRef r₂ key) :
    agentSecretEnvVar r₁ key = agentSecretEnvVar r₂ key := by
  unfold agentSecretEnvRef at h
  exact string_append_left_cancel _ _ _
    (string_append_right_cancel _ _ _ (by simpa [String.append_assoc] using h))

theorem addRequiredSecretRefs_preserves_ref (role : String) (sec : Dict String)
    (l : List String) (plugins deps : List String) (key : String)
    (h : dget sec key = some (agentSecretEnvRef role key)) :
    dget (addRequiredSecretRefs role sec l plugins deps) key
      = some (agentSecretEnvRef role key) := by
  induction l generalizing sec with
  | nil => exact h
  | cons k₀ rest ih =>
    simp only [addRequiredSecretRefs, List.foldl_cons] at *
    by_cases hk : k₀ = key
    · subst hk
      rw [h]
      have ht : truthyStr (some (agentSecretEnvRef role k₀)) = true := by
        simp [truthyStr, agentSecretEnvRef_ne_empty role k₀]
      simp only [ht, if_true]
      exact ih sec h
    · by_cases ht : truthyStr (dget sec k₀) = true
      · simp only [ht, if_true]
        exact ih sec h
      · by_cases hc : alreadyCovered k₀ plugins deps = true
        · simp only [ht, hc, if_true, if_false, Bool.not_eq_true] at *
          simp only [Bool.false_eq_true, if_false]
          exact ih sec h
        · simp only [eq_false_of_ne_true ht, eq_false_of_ne_true hc, Bool.false_eq_true,
            if_false]
          exact ih _ (by rw [dget_dinsert_ne sec k₀ key _ hk]; exact h)

theorem addRequiredSecretRefs_emits (role : String) (secrets : Dict String)
    (req : List String) (plugins deps : List String) (key : String)
    (hmem : key ∈ req)
    (ht : truthyStr (dget secrets key) = false)
    (hc : alreadyCovered key plugins deps = false) :
    dget (addRequiredSecretRefs role secrets req plugins deps) key
      = some (agentSecretEnvRef role key) := by
  induction req generalizing secrets with
  | nil => cases hmem
  | cons k₀ rest ih =>
    simp only [addRequiredSecretRefs, List.foldl_cons] at *
    by_cases hk : k₀ = key
    · subst hk
      simp only [ht, Bool.false_eq_true, if_false, hc]
      exact addRequiredSecretRefs_preserves_ref role _ rest plugins deps k₀
        (dget_dinsert_self secrets k₀ _)
    · have hmem' : key ∈ rest := by
        rcases List.mem_cons.mp hmem with h | h
        · exact absurd h.symm hk
        · exact h
      by_cases ht₀ : truthyStr (dget secrets k₀) = true
      · simp only [ht₀, if_true]
        exact ih secrets hmem' ht
      · by_cases hc₀ : alreadyCovered k₀ plugins deps = true
        · simp only [eq_false_of_ne_true ht₀, Bool.false_eq_true, if_false, hc₀, if_true]
          exact ih secrets hmem' ht
        · simp only [eq_false_of_ne_true ht₀, eq_false_of_ne_true hc₀, Bool.false_eq_true,
            if_false]
          exact ih _ hmem' (by rw [dget_dinsert_ne secrets k₀ key _ hk]; exact ht)

/-- C9 counterexample: two agents with the *different* roles `pm` and `PM`
requiring the same secret key receive the *same* environment variable name,
because the name only depends on the uppercased role. -/
theorem spec_C9_counterexample :
    "pm" ≠ "PM" ∧
    agentSecretEnvVar "pm" "apiToken" = agentSecretEnvVar "PM" "apiToken" ∧
    dget (addRequiredSecretRefs "pm" [] ["apiToken"] [] []) "apiToken"
      = dget (addRequiredSecretRefs "PM" [] ["apiToken"] [] []) "apiToken" := by
  refine ⟨by decide, by decide, by decide⟩

/-- C9 amended: every agent-scope secret key emitted from an identity's
`requiredSecrets` list (not already set, not registry-covered) is mapped to
the env reference built from the uppercased role, an underscore, and the
screaming-snake-cased key; two agents whose roles differ *after uppercasing*
receive distinct environment variable names (roles differing only in letter
case collide). -/
theorem spec_C9_amended (r₁ r₂ : String) (secrets : Dict String)
    (req : List String) (plugins deps : List String) (key : String)
    (hmem : key ∈ req)
    (ht : truthyStr (dget secrets key) = false)
    (hc : alreadyCovered key plugins deps = false) :
    dget (addRequiredSecretRefs r₁ secrets req plugins deps) key
      = some ("$\x7benv:" ++ roleUpper r₁ ++ "_" ++ camelToScreamingSnake key ++ "\x7d") ∧
    (roleUpper r₁ ≠ roleUpper r₂ →
      agentSecretEnvVar r₁ key ≠ agentSecretEnvVar r₂ key ∧
      agentSecretEnvRef r₁ key ≠ agentSecretEnvRef r₂ key) := by
  constructor
  · have := addRequiredSecretRefs_emits r₁ secrets req plugins deps key hmem ht hc
    simpa [agentSecretEnvRef, agentSecretEnvVar, String.append_assoc] using this
  · intro hne
    refine ⟨fun h => hne (agentSecretEnvVar_inj r₁ r₂ key h), fun h => ?_⟩
    exact hne (agentSecretEnvVar_inj r₁ r₂ key (agentSecretEnvRef_inj r₁ r₂ key h))

/-- C9 witness: the amended naming at concrete inputs — roles `pm` and `eng`,
key `customApiKey`. -/
theorem spec_C9_witness :
    dget (addRequiredSecretRefs "pm" [] ["customApiKey"] [] []) "customApiKey"
      = some ("$\x7benv:" ++ roleUpper "pm" ++ "_" ++ camelToScreamingSnake "customApiKey"
          ++ "\x7d") ∧
    (roleUpper "pm" ≠ roleUpper "eng" →
      agentSecretEnvVar "pm" "customApiKey" ≠ agentSecretEnvVar "eng" "customApiKey" ∧
      agentSecretEnvRef "pm" "customApiKey" ≠ agentSecretEnvRef "eng" "customApiKey") :=
  spec_C9_amended "pm" "eng" [] ["customApiKey"] [] [] "customApiKey"
    (by decide) (by decide) (by decide)

/-! ## TemplateVarResolver (setup.ts lines 159-164 / collectTemplateVars in the
init command, lines 1076-1083): start from the persisted map, auto-fill only
names whose current value is JS-falsy and whose owner-profile value is truthy. -/

/-- One iteration of the auto-fill loop:
`if (!templateVars[varName] && autoVars[varName]) templateVars[varName] = autoVars[varName]`. -/
def fillStep (auto tv : Dict String) (n : String) : Dict String :=
  if truthyStr (dget tv n) then tv
  else
    match dget auto n with
    | some v => if v = "" then tv else dinsert tv n v
    | none => tv

/-- The auto-fill loop over the collected template variable names. -/
def fillTemplateVars (existing : Dict String) (names : List String)
    (auto : Dict String) : Dict String :=
  names.foldl (fillStep auto) existing

theorem fillTemplateVars_nil (existing : Dict String) (auto : Dict String) :
    fillTemplateVars existing [] auto = existing := rfl

theorem fillTemplateVars_cons (existing : Dict String) (n₀ : String)
    (rest : List String) (auto : Dict String) :
    fillTemplateVars existing (n₀ :: rest) auto
      = fillTemplateVars (fillStep auto existing n₀) rest auto := rfl

theorem dget_fillStep_ne (auto tv : Dict String) (n₀ n : String) (h : n₀ ≠ n) :
    dget (fillStep auto tv n₀) n = dget tv n := by
  unfold fillStep
  by_cases ht : truthyStr (dget tv n₀) = true
  · rw [if_pos ht]
  · rw [if_neg ht]
    cases hauto : dget auto n₀ with
    | none => rfl
    | some v =>
      by_cases hv : v = ""
      · simp [hv]
      · simp only [if_neg hv]
        exact dget_dinsert_ne tv n₀ n v h

theorem fillTemplateVars_preserves_truthy (existing : Dict String)
    (names : List String) (auto : Dict String) (n : String) (v : String)
    (hv : v ≠ "") (h : dget existing n = some v) :
    dget (fillTemplateVars existing names auto) n = some v := by
  induction names generalizing existing with
  | nil => exact h
  | cons n₀ rest ih =>
    rw [fillTemplateVars_cons]
    by_cases hn : n₀ = n
    · subst hn
      have ht : truthyStr (dget existing n₀) = true := by simp [h, truthyStr, hv]
      have hstep : fillStep auto existing n₀ = existing := by
        unfold fillStep
        rw [if_pos ht]
      rw [hstep]
      exact ih existing h
    · exact ih _ (by rw [dget_fillStep_ne auto existing n₀ n hn]; exact h)

/-- C6 counterexample: a variable name whose persisted value is the *empty
string* is JS-falsy, so the auto-fill loop overwrites it with the
owner-profile value instead of keeping it verbatim. -/
theorem spec_C6_counterexample :
    dget ([("OWNER_NAME", "")] : Dict String) "OWNER_NAME" = some "" ∧
    dget (fillTemplateVars [("OWNER_NAME", "")] ["OWNER_NAME"]
        [("OWNER_NAME", "Alice")]) "OWNER_NAME" = some "Alice" := by
  constructor
  · rfl
  · rfl

/-- C6 amended: template variable resolution keeps a previously-resolved value
verbatim and never overwrites it with an auto-filled one, *provided the prior
value is non-empty*; a key present with the empty string is treated as absent
(JS falsiness) and may be auto-filled. -/
theorem spec_C6_amended (existing : Dict String) (names : List String)
    (auto : Dict String) (n : String) (v : String)
    (hv : v ≠ "") (h : dget existing n = some v) :
    dget (fillTemplateVars existing names auto) n = some v :=
  fillTemplateVars_preserves_truthy existing names auto n v hv h

/-- C6 witness: a non-empty previously-resolved value survives auto-fill. -/
theorem spec_C6_witness :
    dget (fillTemplateVars [("LINEAR_TEAM", "ENG")] ["LINEAR_TEAM", "OWNER_NAME"]
        [("LINEAR_TEAM", "OTHER"), ("OWNER_NAME", "Alice")]) "LINEAR_TEAM"
      = some "ENG" :=
  spec_C6_amended [("LINEAR_TEAM", "ENG")] ["LINEAR_TEAM", "OWNER_NAME"]
    [("LINEAR_TEAM", "OTHER"), ("OWNER_NAME", "Alice")] "LINEAR_TEAM" "ENG"
    (by decide) (by rfl)

theorem fillTemplateVars_post (existing : Dict String) (names : List String)
    (auto : Dict String) :
    ∀ n ∈ names,
      truthyStr (dget (fillTemplateVars existing names auto) n) = true ∨
      truthyStr (dget auto n) = false := by
  induction names generalizing existing with
  | nil => intro n hn; cases hn
  | cons n₀ rest ih =>
    intro n hn
    rw [fillTemplateVars_cons]
    rcases List.mem_cons.mp hn with rfl | hn'
    · by_cases hn₀ : n ∈ rest
      · exact ih (fillStep auto existing n) n hn₀
      · cases hcur : dget (fillStep auto existing n) n with
        | some v =>
          by_cases hv : v = ""
          · subst hv
            right
            unfold fillStep at hcur
            by_cases ht : truthyStr (dget existing n) = true
            · rw [if_pos ht] at hcur
              rw [hcur] at ht
              simp [truthyStr] at ht
            · rw [if_neg ht] at hcur
              cases hauto : dget auto n with
              | none => simp [hauto, truthyStr]
              | some w =>
                rw [hauto] at hcur
                by_cases hw : w = ""
                · simp [hauto, hw, truthyStr]
                · simp only [if_neg hw] at hcur
                  rw [dget_dinsert_self existing n w] at hcur
                  exact absurd (Option.some.inj hcur) hw
          · left
            have := fillTemplateVars_preserves_truthy (fillStep auto existing n)
              rest auto n v hv hcur
            rw [this]
            simpa [truthyStr] using hv
        | none =>
          right
          unfold fillStep at hcur
          by_cases ht : truthyStr (dget existing n) = true
          · rw [if_pos ht] at hcur
            rw [hcur] at ht
            cases ht
          · rw [if_neg ht] at hcur
            cases hauto : dget auto n with
            | none => simp [hauto, truthyStr]
            | some w =>
              rw [hauto] at hcur
              by_cases hw : w = ""
              · simp [hauto, hw, truthyStr]
              · simp only [if_neg hw] at hcur
                rw [dget_dinsert_self existing n w] at hcur
                cases hcur
    · exact ih (fillStep auto existing n₀) n hn'

theorem fillTemplateVars_stable (tv : Dict String) (names : List String)
    (auto : Dict String)
    (h : ∀ n ∈ names,
      truthyStr (dget tv n) = true ∨ truthyStr (dget auto n) = false) :
    fillTemplateVars tv names auto = tv := by
  induction names with
  | nil => rfl
  | cons n₀ rest ih =>
    rw [fillTemplateVars_cons]
    have hstep : fillStep auto tv n₀ = tv := by
      unfold fillStep
      rcases h n₀ (List.mem_cons_self n₀ rest) with ht | ha
      · rw [if_pos ht]
      · by_cases ht : truthyStr (dget tv n₀) = true
        · rw [if_pos ht]
        · rw [if_neg ht]
          cases hauto : dget auto n₀ with
          | none => rfl
          | some v =>
            have hv : v = "" := by
              rw [hauto] at ha
              simpa [truthyStr] using ha
            simp [hv]
    rw [hstep]
    exact ih fun n hn => h n (List.mem_cons_of_mem n₀ hn)

/-- C7: template-variable resolution is idempotent — running the auto-fill
resolution a second time on the map produced by the first run, with the same
collected names and the same owner-profile auto values, returns the first
run's output unchanged (byte-identical). -/
theorem spec_C7 (existing : Dict String) (names : List String) (auto : Dict String) :
    fillTemplateVars (fillTemplateVars existing names auto) names auto
      = fillTemplateVars existing names auto :=
  fillTemplateVars_stable (fillTemplateVars existing names auto) names auto
    (fillTemplateVars_post existing names auto)

/-! ## Matcher — tiered reconciliation (C4, C5)

`matchIdentitiesToAgents` lives in `packages/cli/commands/init.ts`, which is
not under src/ (only its test suite is).  The algorithm is modelled from the
spec §4.4 and its behaviour is pinned by `init-matching.test.ts`. -/

/-- The output of the matcher (`MatchResult`). -/
structure MatchResult where
  matched : List (AgentDef × DiscoveredIdentity)
  unmatchedAgents : List AgentDef
  unmatchedPaths : List String
  deriving DecidableEq, Repr

/-- Find the first element satisfying `p`; return it and the remaining list. -/
def pickFirst {α : Type u} (p : α → Bool) : List α → Option (α × List α)
  | [] => none
  | x :: xs =>
    if p x then some (x, xs)
    else
      match pickFirst p xs with
      | some (y, ys) => some (y, x :: ys)
      | none => none

/-- Run one matching tier over the unmatched pools: each agent in order takes
the first still-unmatched discovered identity satisfying the tier predicate;
matched items are removed from both pools. -/
def runTier (pred : AgentDef → DiscoveredIdentity → Bool) :
    List AgentDef → List DiscoveredIdentity →
    List (AgentDef × DiscoveredIdentity) × List AgentDef × List DiscoveredIdentity
  | [], ds => ([], [], ds)
  | a :: as, ds =>
    match pickFirst (pred a) ds with
    | some (d, rest) =>
      let r := runTier pred as rest
      ((a, d) :: r.1, r.2.1, r.2.2)
    | none =>
      let r := runTier pred as ds
      (r.1, a :: r.2.1, r.2.2)

/-- Modelled from the spec: the agent's identity-derived short name — "the
portion of the agent's name after its role-agnostic prefix convention"
(`agent-juno → juno`). -/
def agentShortName (n : String) : String :=
  match n.data with
  | 'a' :: 'g' :: 'e' :: 'n' :: 't' :: '-' :: rest => String.mk rest
  | _ => n

/-- Tier 1 — exact source match: the agent's `identity` source string equals a
discovered identity's `relPath`. -/
def tier1Pred (a : AgentDef) (d : DiscoveredIdentity) : Bool :=
  a.identity == d.relPath

/-- Tier 2 — name match: the discovered manifest's `name` equals the agent's
identity-derived short name. -/
def tier2Pred (a : AgentDef) (d : DiscoveredIdentity) : Bool :=
  agentShortName a.name == d.manifest.name

/-- Tier 3 — unique-role match: equal roles, and the role is unique among both
pools as they stand when tier 3 starts. -/
def tier3Pred (pool : List AgentDef) (dpool : List DiscoveredIdentity)
    (a : AgentDef) (d : DiscoveredIdentity) : Bool :=
  a.role == d.manifest.role &&
  (pool.filter (fun x => x.role == a.role)).length == 1 &&
  (dpool.filter (fun x => x.manifest.role == a.role)).length == 1

/-- Modelled from the spec: `matchIdentitiesToAgents` (§4.4) — three ordered
tiers over shrinking pools of unmatched agents and discovered identities. -/
def matchIdentitiesToAgents (agents : List AgentDef)
    (discovered : List DiscoveredIdentity) : MatchResult :=
  let t1 := runTier tier1Pred agents discovered
  let t2 := runTier tier2Pred t1.2.1 t1.2.2
  let t3 := runTier (tier3Pred t2.2.1 t2.2.2) t2.2.1 t2.2.2
  { matched := t1.1 ++ t2.1 ++ t3.1
    unmatchedAgents := t3.2.1
    unmatchedPaths := t3.2.2.map (fun d => d.relPath) }

theorem pickFirst_none {α : Type u} (p : α → Bool) (l : List α)
    (h : ∀ x ∈ l, p x = false) : pickFirst p l = none := by
  induction l with
  | nil => rfl
  | cons x xs ih =>
    simp only [pickFirst]
    rw [h x (List.mem_cons_self x xs)]
    simp only [Bool.false_eq_true, if_false]
    rw [ih fun y hy => h y (List.mem_cons_of_mem x hy)]

theorem runTier_nomatch (pred : AgentDef → DiscoveredIdentity → Bool)
    (as : List AgentDef) (ds : List DiscoveredIdentity)
    (h : ∀ a ∈ as, ∀ d ∈ ds, pred a d = false) :
    runTier pred as ds = ([], as, ds) := by
  induction as with
  | nil => rfl
  | cons a rest ih =>
    simp only [runTier]
    rw [pickFirst_none (pred a) ds (h a (List.mem_cons_self a rest))]
    rw [ih fun x hx => h x (List.mem_cons_of_mem a hx)]

/-- C4: when no path or name match applies anywhere and every agent's role is
shared by at least two unmatched agents or at least two unmatched discovered
identities, the matcher matches nothing: every agent and every discovered
identity is reported unmatched rather than paired arbitrarily. -/
theorem spec_C4 (agents : List AgentDef) (discovered : List DiscoveredIdentity)
    (hnames : ∀ a ∈ agents, ∀ d ∈ discovered,
      tier1Pred a d = false ∧ tier2Pred a d = false)
    (hambig : ∀ a ∈ agents,
      2 ≤ (agents.filter (fun x => x.role == a.role)).length ∨
      2 ≤ (discovered.filter (fun x => x.manifest.role == a.role)).length) :
    matchIdentitiesToAgents agents discovered
      = ⟨[], agents, discovered.map (fun d => d.relPath)⟩ := by
  have h1 : runTier tier1Pred agents discovered = ([], agents, discovered) :=
    runTier_nomatch _ _ _ fun a ha d hd => (hnames a ha d hd).1
  have h2 : runTier tier2Pred agents discovered = ([], agents, discovered) :=
    runTier_nomatch _ _ _ fun a ha d hd => (hnames a ha d hd).2
  have h3 : runTier (tier3Pred agents discovered) agents discovered
      = ([], agents, discovered) := by
    apply runTier_nomatch
    intro a ha d _
    unfold tier3Pred
    rcases hambig a ha with hag | hdi
    · have h4 : ((agents.filter (fun x => x.role == a.role)).length == 1) = false := by
        rw [beq_eq_false_iff_ne]
        omega
      simp [h4]
    · have h4 : ((discovered.filter (fun x => x.manifest.role == a.role)).length == 1)
          = false := by
        rw [beq_eq_false_iff_ne]
        omega
      simp [h4]
  unfold matchIdentitiesToAgents
  rw [h1]
  simp only
  rw [h2]
  simp only
  rw [h3]
  rfl

/-- C4 witness: the concrete spec scenario — two agents sharing role `eng`
against two discovered identities with role `eng`, no path or name overlap:
zero matched pairs, two unmatched agents, two unmatched paths. -/
theorem spec_C4_witness :
    matchIdentitiesToAgents
        [{ name := "agent-eng1", displayName := "agent-eng1", role := "eng",
           identity := "./eng1", volumeSize := 30 },
         { name := "agent-eng2", displayName := "agent-eng2", role := "eng",
           identity := "./eng2-old", volumeSize := 30 }]
        [{ relPath := "./eng-a",
           manifest := { name := "eng-alpha", displayName := "eng-alpha", role := "eng" } },
         { relPath := "./eng-b",
           manifest := { name := "eng-beta", displayName := "eng-beta", role := "eng" } }]
      = ⟨[],
         [{ name := "agent-eng1", displayName := "agent-eng1", role := "eng",
            identity := "./eng1", volumeSize := 30 },
          { name := "agent-eng2", displayName := "agent-eng2", role := "eng",
            identity := "./eng2-old", volumeSize := 30 }],
         ["./eng-a", "./eng-b"]⟩ :=
  spec_C4 _ _ (by decide) (by decide)

theorem pickFirst_perm {α : Type u} (p : α → Bool) (l : List α) (x : α) (rest : List α)
    (h : pickFirst p l = some (x, rest)) : l.Perm (x :: rest) := by
  induction l generalizing rest with
  | nil => cases h
  | cons y ys ih =>
    simp only [pickFirst] at h
    by_cases hy : p y = true
    · rw [if_pos hy] at h
      cases h
      exact List.Perm.refl _
    · rw [if_neg hy] at h
      cases hp : pickFirst p ys with
      | none => rw [hp] at h; cases h
      | some zr =>
        obtain ⟨z, zs⟩ := zr
        rw [hp] at h
        cases h
        exact ((ih zs hp).cons y).trans (List.Perm.swap x y zs)

theorem runTier_perm_agents (pred : AgentDef → DiscoveredIdentity → Bool)
    (as : List AgentDef) (ds : List DiscoveredIdentity) :
    ((runTier pred as ds).1.map Prod.fst ++ (runTier pred as ds).2.1).Perm as := by
  induction as generalizing ds with
  | nil => simp [runTier]
  | cons a rest ih =>
    simp only [runTier]
    cases hp : pickFirst (pred a) ds with
    | some dr =>
      obtain ⟨d, dds⟩ := dr
      simpa using (ih dds).cons a
    | none =>
      have := ih ds
      simpa using (List.perm_middle.trans (this.cons a))

theorem runTier_perm_discovered (pred : AgentDef → DiscoveredIdentity → Bool)
    (as : List AgentDef) (ds : List DiscoveredIdentity) :
    ((runTier pred as ds).1.map Prod.snd ++ (runTier pred as ds).2.2).Perm ds := by
  induction as generalizing ds with
  | nil => simp [runTier]
  | cons a rest ih =>
    simp only [runTier]
    cases hp : pickFirst (pred a) ds with
    | some dr =>
      obtain ⟨d, dds⟩ := dr
      have hperm := pickFirst_perm (pred a) ds d dds hp
      have := (ih dds).cons d
      simpa using this.trans hperm.symm
    | none =>
      simpa using ih ds

theorem perm_append_three {α : Type u} (m₁ m₂ m₃ u a₁ a₂ a₃ : List α)
    (h₃ : (m₃ ++ u).Perm a₃) (h₂ : (m₂ ++ a₃).Perm a₂) (h₁ : (m₁ ++ a₂).Perm a₁) :
    ((m₁ ++ m₂ ++ m₃) ++ u).Perm a₁ := by
  have e : (m₁ ++ m₂ ++ m₃) ++ u = m₁ ++ (m₂ ++ (m₃ ++ u)) := by
    simp [List.append_assoc]
  rw [e]
  exact ((List.Perm.append_left m₁
    ((List.Perm.append_left m₂ h₃).trans h₂)).trans h₁)

theorem matchIdentitiesToAgents_perm (agents : List AgentDef)
    (discovered : List DiscoveredIdentity) :
    (((matchIdentitiesToAgents agents discovered).matched.map Prod.fst)
        ++ (matchIdentitiesToAgents agents discovered).unmatchedAgents).Perm agents ∧
    (((matchIdentitiesToAgents agents discovered).matched.map
          (fun p => p.2.relPath))
        ++ (matchIdentitiesToAgents agents discovered).unmatchedPaths).Perm
      (discovered.map (fun d => d.relPath)) := by
  unfold matchIdentitiesToAgents
  simp only [List.map_append]
  constructor
  · exact perm_append_three _ _ _ _ _ _ _
      (runTier_perm_agents _ _ _) (runTier_perm_agents _ _ _)
      (runTier_perm_agents tier1Pred agents discovered)
  · have h1 := (runTier_perm_discovered tier1Pred agents discovered).map
      (fun d => d.relPath)
    have h2 := (runTier_perm_discovered tier2Pred
      (runTier tier1Pred agents discovered).2.1
      (runTier tier1Pred agents discovered).2.2).map (fun d => d.relPath)
    have h3 := (runTier_perm_discovered
      (tier3Pred (runTier tier2Pred (runTier tier1Pred agents discovered).2.1
          (runTier tier1Pred agents discovered).2.2).2.1
        (runTier tier2Pred (runTier tier1Pred agents discovered).2.1
          (runTier tier1Pred agents discovered).2.2).2.2)
      (runTier tier2Pred (runTier tier1Pred agents discovered).2.1
          (runTier tier1Pred agents discovered).2.2).2.1
      (runTier tier2Pred (runTier tier1Pred agents discovered).2.1
          (runTier tier1Pred agents discovered).2.2).2.2).map (fun d => d.relPath)
    simp only [List.map_append, List.map_map] at h1 h2 h3
    exact perm_append_three _ _ _ _ _ _ _ h3 h2 h1

/-- C5: tiers are evaluated in order over shrinking pools.  (i) An agent whose
identity source exactly equals one discovered identity's relPath (tier 1) is
paired with that identity even when its short name also matches a different
discovered identity's manifest name (tier 2), and the tier-2 candidate stays
unmatched.  (ii) For arbitrary inputs the matched pairs together with the
unmatched leftovers are a permutation of the input pools, so no agent and no
discovered identity appears in more than one matched pair. -/
theorem spec_C5 (a : AgentDef) (d₁ d₂ : DiscoveredIdentity)
    (h : tier1Pred a d₁ = true) :
    matchIdentitiesToAgents [a] [d₁, d₂] = ⟨[(a, d₁)], [], [d₂.relPath]⟩ ∧
    ∀ (agents : List AgentDef) (discovered : List DiscoveredIdentity),
      ((((matchIdentitiesToAgents agents discovered).matched.map Prod.fst)
          ++ (matchIdentitiesToAgents agents discovered).unmatchedAgents).Perm agents ∧
       (((matchIdentitiesToAgents agents discovered).matched.map
            (fun p => p.2.relPath))
          ++ (matchIdentitiesToAgents agents discovered).unmatchedPaths).Perm
        (discovered.map (fun d => d.relPath))) := by
  constructor
  · unfold matchIdentitiesToAgents
    simp only [runTier, pickFirst, h, if_true]
    rfl
  · exact fun agents discovered => matchIdentitiesToAgents_perm agents discovered

/-- C5 witness: the concrete test scenario — `agent-pm` with source `./pm`
against a tier-1 candidate at `./pm` and a tier-2 candidate named `pm` at
`./other`; the tier-1 identity wins and `./other` stays unmatched. -/
theorem spec_C5_witness :
    (matchIdentitiesToAgents
        [{ name := "agent-pm", displayName := "agent-pm", role := "pm",
           identity := "./pm", volumeSize := 30 }]
        [{ relPath := "./pm",
           manifest := { name := "different", displayName := "different", role := "pm" } },
         { relPath := "./other",
           manifest := { name := "pm", displayName := "pm", role := "something" } }]
      = ⟨[({ name := "agent-pm", displayName := "agent-pm", role := "pm",
             identity := "./pm", volumeSize := 30 },
           { relPath := "./pm",
             manifest := { name := "different", displayName := "different",
                           role := "pm" } })], [], ["./other"]⟩) ∧
    ∀ (agents : List AgentDef) (discovered : List DiscoveredIdentity),
      ((((matchIdentitiesToAgents agents discovered).matched.map Prod.fst)
          ++ (matchIdentitiesToAgents agents discovered).unmatchedAgents).Perm agents ∧
       (((matchIdentitiesToAgents agents discovered).matched.map
            (fun p => p.2.relPath))
          ++ (matchIdentitiesToAgents agents discovered).unmatchedPaths).Perm
        (discovered.map (fun d => d.relPath))) :=
  spec_C5
    { name := "agent-pm", displayName := "agent-pm", role := "pm",
      identity := "./pm", volumeSize := 30 }
    { relPath := "./pm",
      manifest := { name := "different", displayName := "different", role := "pm" } }
    { relPath := "./other",
      manifest := { name := "pm", displayName := "pm", role := "something" } }
    (by decide)

/-! ## SecretsResolver value resolution (C8)

`loadEnvSecrets` lives in `packages/cli/lib/env.ts`, which is not under src/;
it is modelled from the spec §4.5: every secret entry maps a key to either an
`$\x7benv:NAME\x7d` reference or a literal value, resolution looks the reference up
in the parsed `.env` dictionary, and *all* unresolvable keys across the global
scope and every agent are collected into one `missing` list.  The validator
behaviour (warn, never block) is embedded from setup.ts step 6 (in src). -/

/-- One missing-secret report: the manifest key, the env var the user must
set, and the owning agent (none for global scope). -/
structure MissingSecret where
  key : String
  envVar : String
  agent : Option String
  deriving DecidableEq, Repr

/-- Parse a `$\x7benv:NAME\x7d` reference; returns the env var name. -/
def envRefName (v : String) : Option String :=
  match v.data with
  | '$' :: '\x7b' :: 'e' :: 'n' :: 'v' :: ':' :: rest =>
    if rest.getLast? = some '\x7d' then some (String.mk rest.dropLast) else none
  | _ => none

/-- Modelled from the spec: resolve one secret value — an env reference
resolves to the referenced `.env` entry when present and non-empty, a literal
resolves to itself when non-empty; otherwise the value is unresolvable. -/
def resolveSecretValue (envDict : Dict String) (v : String) : Option String :=
  match envRefName v with
  | some n =>
    match dget envDict n with
    | some val => if val = "" then none else some val
    | none => none
  | none => if v = "" then none else some v

/-- Resolve a whole secrets map, keeping only the resolvable entries. -/
def resolveDict (envDict d : Dict String) : Dict String :=
  d.foldr
    (fun kv acc =>
      match resolveSecretValue envDict kv.2 with
      | some val => (kv.1, val) :: acc
      | none => acc)
    []

/-- The missing-secret reports of one secrets map under one scope. -/
def missingOf (envDict : Dict String) (agent : Option String) (d : Dict String) :
    List MissingSecret :=
  d.foldr
    (fun kv acc =>
      match resolveSecretValue envDict kv.2 with
      | some _ => acc
      | none => { key := kv.1, envVar := (envRefName kv.2).getD kv.2, agent := agent } :: acc)
    []

/-- The output of `loadEnvSecrets`. -/
structure ResolvedSecrets where
  global : Dict String
  perAgent : Dict (Dict String)
  missing : List MissingSecret
  deriving DecidableEq, Repr

/-- Modelled from the spec: `loadEnvSecrets(globalSecrets, agents, envDict)` —
resolve the global scope and every agent's scope, and aggregate every
unresolvable key across all agents into the single `missing` list. -/
def loadEnvSecrets (globalSecrets : Dict String) (agents : List AgentDef)
    (envDict : Dict String) : ResolvedSecrets :=
  { global := resolveDict envDict globalSecrets
    perAgent := agents.map (fun a => (a.name, resolveDict envDict a.secrets))
    missing := missingOf envDict none globalSecrets ++
      (agents.map (fun a => missingOf envDict (some a.name) a.secrets)).flatten }

/-- setup.ts step 6: run the format validators over every resolved value,
collecting only warnings; the missing list handed on is exactly the
resolver's missing list, untouched by validator outcomes. -/
def validateCompleteness (validators : Dict (String → Option String))
    (r : ResolvedSecrets) : List String × List MissingSecret :=
  (r.global.foldr
      (fun kv acc =>
        match dget validators kv.1 with
        | some f =>
          match f kv.2 with
          | some w => (kv.1 ++ ": " ++ w) :: acc
          | none => acc
        | none => acc)
      [] ++
    r.perAgent.foldr
      (fun av acc =>
        av.2.foldr
          (fun kv acc₂ =>
            match dget validators kv.1 with
            | some f =>
              match f kv.2 with
              | some w => (kv.1 ++ ": " ++ w) :: acc₂
              | none => acc₂
            | none => acc₂)
          [] ++ acc)
      [],
   r.missing)

theorem missingOf_agent (envDict : Dict String) (ag : Option String)
    (d : Dict String) : ∀ m ∈ missingOf envDict ag d, m.agent = ag := by
  induction d with
  | nil => intro m hm; cases hm
  | cons kv rest ih =>
    intro m hm
    simp only [missingOf, List.foldr_cons] at hm
    cases hres : resolveSecretValue envDict kv.2 with
    | some val =>
      rw [hres] at hm
      exact ih m hm
    | none =>
      rw [hres] at hm
      rcases List.mem_cons.mp hm with rfl | hm'
      · rfl
      · exact ih m hm'

theorem missingOf_key_mem (envDict : Dict String) (ag : Option String)
    (d : Dict String) : ∀ m ∈ missingOf envDict ag d, m.key ∈ dkeys d := by
  induction d with
  | nil => intro m hm; cases hm
  | cons kv rest ih =>
    intro m hm
    simp only [missingOf, List.foldr_cons] at hm
    cases hres : resolveSecretValue envDict kv.2 with
    | some val =>
      rw [hres] at hm
      exact List.mem_cons_of_mem _ (ih m hm)
    | none =>
      rw [hres] at hm
      rcases List.mem_cons.mp hm with rfl | hm'
      · exact List.mem_cons_self _ _
      · exact List.mem_cons_of_mem _ (ih m hm')

theorem countP_missingOf (envDict : Dict String) (ag : Option String)
    (d : Dict String) (k : String) (v : String)
    (hnd : (dkeys d).Nodup) (hmem : (k, v) ∈ d) :
    (missingOf envDict ag d).countP (fun m => m.key == k && m.agent == ag)
      = if (resolveSecretValue envDict v).isNone then 1 else 0 := by
  induction d with
  | nil => cases hmem
  | cons kv rest ih =>
    obtain ⟨k₀, v₀⟩ := kv
    simp only [dkeys, List.map_cons, List.nodup_cons] at hnd
    rcases List.mem_cons.mp hmem with heq | hmem'
    · have hk : k₀ = k := congrArg Prod.fst heq.symm
      have hv : v₀ = v := congrArg Prod.snd heq.symm
      subst hk
      subst hv
      have hzero : (missingOf envDict ag rest).countP
          (fun m => m.key == k₀ && m.agent == ag) = 0 := by
        rw [List.countP_eq_zero]
        intro m hm
        have hkm := missingOf_key_mem envDict ag rest m hm
        have hne : m.key ≠ k₀ := by
          intro hkey
          exact hnd.1 (by simpa [dkeys, hkey] using hkm)
        simp [hne]
      cases hres : resolveSecretValue envDict v₀ with
      | some val =>
        have hshape : missingOf envDict ag ((k₀, v₀) :: rest)
            = missingOf envDict ag rest := by
          simp only [missingOf, List.foldr_cons, hres]
        rw [hshape, hzero]
        rfl
      | none =>
        have hshape : missingOf envDict ag ((k₀, v₀) :: rest)
            = { key := k₀, envVar := (envRefName v₀).getD v₀, agent := ag }
              :: missingOf envDict ag rest := by
          simp only [missingOf, List.foldr_cons, hres]
        rw [hshape, List.countP_cons, hzero]
        simp
    · have hk : k₀ ≠ k := by
        intro h
        subst h
        exact hnd.1 (by simpa [dkeys] using List.mem_map_of_mem Prod.fst hmem')
      cases hres : resolveSecretValue envDict v₀ with
      | some val =>
        have hshape : missingOf envDict ag ((k₀, v₀) :: rest)
            = missingOf envDict ag rest := by
          simp only [missingOf, List.foldr_cons, hres]
        rw [hshape]
        exact ih hnd.2 hmem'
      | none =>
        have hshape : missingOf envDict ag ((k₀, v₀) :: rest)
            = { key := k₀, envVar := (envRefName v₀).getD v₀, agent := ag }
              :: missingOf envDict ag rest := by
          simp only [missingOf, List.foldr_cons, hres]
        rw [hshape, List.countP_cons]
        have hik := ih hnd.2 hmem'
        simp [hk, hik]

theorem countP_missingOf_other_agent (envDict : Dict String)
    (ag ag' : Option String) (d : Dict String) (k : String) (h : ag' ≠ ag) :
    (missingOf envDict ag' d).countP (fun m => m.key == k && m.agent == ag) = 0 := by
  rw [List.countP_eq_zero]
  intro m hm
  have := missingOf_agent envDict ag' d m hm
  simp [this, h]

theorem countP_missing_perAgent (envDict : Dict String) (k : String)
    (agents : List AgentDef)
    (hnames : (agents.map AgentDef.name).Nodup)
    (hsec : ∀ a ∈ agents, (dkeys a.secrets).Nodup)
    (a : AgentDef) (ha : a ∈ agents)
    (v : String) (hmem : (k, v) ∈ a.secrets) :
    ((agents.map (fun x => missingOf envDict (some x.name) x.secrets)).flatten).countP
        (fun m => m.key == k && m.agent == some a.name)
      = if (resolveSecretValue envDict v).isNone then 1 else 0 := by
  induction agents with
  | nil => cases ha
  | cons b rest ih =>
    simp only [List.map_cons, List.nodup_cons] at hnames
    simp only [List.map_cons, List.flatten_cons, List.countP_append]
    rcases List.mem_cons.mp ha with rfl | ha'
    · have hrest : ((rest.map
          (fun x => missingOf envDict (some x.name) x.secrets)).flatten).countP
          (fun m => m.key == k && m.agent == some a.name) = 0 := by
        rw [List.countP_eq_zero]
        intro m hm
        rw [List.mem_flatten] at hm
        obtain ⟨l, hl, hml⟩ := hm
        rw [List.mem_map] at hl
        obtain ⟨c, hc, rfl⟩ := hl
        have hag := missingOf_agent envDict (some c.name) c.secrets m hml
        have hcn : c.name ≠ a.name := by
          intro hcn
          exact hnames.1 (hcn ▸ List.mem_map_of_mem AgentDef.name hc)
        simp [hag, hcn]
      rw [hrest,
        countP_missingOf envDict (some a.name) a.secrets k v
          (hsec a (List.mem_cons_self a rest)) hmem]
      omega
    · have hb : (missingOf envDict (some b.name) b.secrets).countP
          (fun m => m.key == k && m.agent == some a.name) = 0 := by
        apply countP_missingOf_other_agent
        simp only [Ne, Option.some.injEq]
        intro hbn
        exact hnames.1 (hbn ▸ List.mem_map_of_mem AgentDef.name ha')
      rw [hb]
      have := ih hnames.2 (fun c hc => hsec c (List.mem_cons_of_mem b hc)) ha'
      omega

/-- C8: secret resolution collects every required key with no resolvable
value, across the global scope and all agents, into the single `missing`
list, each (scope, key) requirement exactly once; a key whose value resolves
never appears in `missing`, and the format validators influence only the
warning list — the missing list handed on by the completeness check is the
resolver's, whatever the validators report. -/
theorem spec_C8 (globalSecrets : Dict String) (agents : List AgentDef)
    (envDict : Dict String)
    (hg : (dkeys globalSecrets).Nodup)
    (hnames : (agents.map AgentDef.name).Nodup)
    (hsec : ∀ a ∈ agents, (dkeys a.secrets).Nodup) :
    (∀ k v, (k, v) ∈ globalSecrets →
      (loadEnvSecrets globalSecrets agents envDict).missing.countP
          (fun m => m.key == k && m.agent == (none : Option String))
        = if (resolveSecretValue envDict v).isNone then 1 else 0) ∧
    (∀ a ∈ agents, ∀ k v, (k, v) ∈ a.secrets →
      (loadEnvSecrets globalSecrets agents envDict).missing.countP
          (fun m => m.key == k && m.agent == some a.name)
        = if (resolveSecretValue envDict v).isNone then 1 else 0) ∧
    (∀ validators,
      (validateCompleteness validators (loadEnvSecrets globalSecrets agents envDict)).2
        = (loadEnvSecrets globalSecrets agents envDict).missing) := by
  refine ⟨?_, ?_, fun _ => rfl⟩
  · intro k v hmem
    unfold loadEnvSecrets
    simp only
    rw [List.countP_append]
    have hjoin : ((agents.map
        (fun a => missingOf envDict (some a.name) a.secrets)).flatten).countP
        (fun m => m.key == k && m.agent == (none : Option String)) = 0 := by
      rw [List.countP_eq_zero]
      intro m hm
      rw [List.mem_flatten] at hm
      obtain ⟨l, hl, hml⟩ := hm
      rw [List.mem_map] at hl
      obtain ⟨a, _, rfl⟩ := hl
      have := missingOf_agent envDict (some a.name) a.secrets m hml
      simp [this]
    rw [hjoin, countP_missingOf envDict none globalSecrets k v hg hmem]
    omega
  · intro a ha k v hmem
    unfold loadEnvSecrets
    simp only
    rw [List.countP_append]
    have hglobal : (missingOf envDict none globalSecrets).countP
        (fun m => m.key == k && m.agent == some a.name) = 0 :=
      countP_missingOf_other_agent envDict (some a.name) none globalSecrets k
        (by simp)
    rw [hglobal]
    have := countP_missing_perAgent envDict k agents hnames hsec a ha v hmem
    omega

/-- C8 witness: one agent with an unresolvable key and one resolvable global
key — the unresolvable key is reported exactly once, the resolvable one never,
and validators leave the missing list alone. -/
theorem spec_C8_witness :
    ((loadEnvSecrets [("anthropicApiKey", "$\x7benv:ANTHROPIC_API_KEY\x7d")]
        [{ name := "agent-pm", displayName := "agent-pm", role := "pm",
           identity := "./pm", volumeSize := 30,
           secrets := [("linearApiKey", "$\x7benv:PM_LINEAR_API_KEY\x7d")] }]
        [("ANTHROPIC_API_KEY", "sk-ant-xyz")]).missing.countP
        (fun m => m.key == "anthropicApiKey" && m.agent == (none : Option String)) = 0) ∧
    ((loadEnvSecrets [("anthropicApiKey", "$\x7benv:ANTHROPIC_API_KEY\x7d")]
        [{ name := "agent-pm", displayName := "agent-pm", role := "pm",
           identity := "./pm", volumeSize := 30,
           secrets := [("linearApiKey", "$\x7benv:PM_LINEAR_API_KEY\x7d")] }]
        [("ANTHROPIC_API_KEY", "sk-ant-xyz")]).missing.countP
        (fun m => m.key == "linearApiKey" && m.agent == some "agent-pm") = 1) := by
  have h := spec_C8 [("anthropicApiKey", "$\x7benv:ANTHROPIC_API_KEY\x7d")]
    [{ name := "agent-pm", displayName := "agent-pm", role := "pm",
       identity := "./pm", volumeSize := 30,
       secrets := [("linearApiKey", "$\x7benv:PM_LINEAR_API_KEY\x7d")] }]
    [("ANTHROPIC_API_KEY", "sk-ant-xyz")]
    (by decide) (by decide) (by decide)
  refine ⟨?_, ?_⟩
  · have h1 := h.1 "anthropicApiKey" "$\x7benv:ANTHROPIC_API_KEY\x7d" (by decide)
    rw [h1]
    decide
  · have h2 := h.2.1 _ (List.mem_singleton.mpr rfl) "linearApiKey"
      "$\x7benv:PM_LINEAR_API_KEY\x7d" (by decide)
    rw [h2]
    decide

/-! ## setupCommand pipeline (C3): abort-before-write discipline

Embedded from setup.ts: step 2 fetches every agent's identity and exits on the
first failure; steps 3-6 resolve template variables and secrets, each exiting
on failure; the first file write (`clawup.yaml`, then `.env.example`, then
`.gitignore`) happens only in step 8, after every fetch and resolution step
has succeeded.  (The Linear UUID step 7 is network I/O preceding all writes
and is not modelled; its failure also exits before any write.) -/

inductive SetupErr where
  | fetchFailed (agentName : String)
  | missingTemplateVars (vars : List String)
  | envFileMissing
  | missingSecrets (missing : List MissingSecret)
  deriving DecidableEq, Repr

/-- The files setup.ts writes, in source order (lines 392, 404, 420-430). -/
inductive FileWrite where
  | manifestFile
  | envExampleFile
  | gitignoreFile
  deriving DecidableEq, Repr

/-- setup.ts step 2: fetch identities one agent at a time, failing with the
first agent whose identity cannot be resolved. -/
def fetchAll (agents : List AgentDef)
    (fetch : String → Except String IdentityManifest) :
    Except String (List (AgentDef × IdentityManifest)) :=
  match agents with
  | [] => .ok []
  | a :: rest =>
    match fetch a.identity with
    | .error _ => .error a.name
    | .ok im =>
      match fetchAll rest fetch with
      | .error e => .error e
      | .ok l => .ok ((a, im) :: l)

/-- setup.ts lines 153-157: auto-fillable template vars from manifest owner
info (each guarded by JS truthiness of the manifest field). -/
def autoVarsOf (m : ClawupManifest) : Dict String :=
  (if m.ownerName ≠ "" then [("OWNER_NAME", m.ownerName)] else []) ++
  (match m.timezone with
   | some t => if t ≠ "" then [("TIMEZONE", t)] else []
   | none => []) ++
  (match m.workingHours with
   | some w => if w ≠ "" then [("WORKING_HOURS", w)] else []
   | none => []) ++
  (match m.userNotes with
   | some u => if u ≠ "" then [("USER_NOTES", u)] else []
   | none => [])

/-- setup.ts lines 145-150: the set of template variable names declared across
all fetched identities (insertion order, first occurrence kept). -/
def allTemplateVarNames (fetched : List (AgentDef × IdentityManifest)) : List String :=
  ((fetched.map (fun fi => fi.2.templateVars)).flatten).eraseDups

/-- Modelled from the spec: `buildManifestSecrets` (packages/cli/lib/env.ts,
not under src/) — global infrastructure secret env refs plus per-agent secret
env refs derived from plugin registry entries, dependency registry entries and
the identity's `requiredSecrets` (§4.5). -/
def buildManifestSecrets (provider : String)
    (fetched : List (AgentDef × IdentityManifest)) :
    Dict String × Dict (Dict String) :=
  let base : Dict String :=
    [("anthropicApiKey", "$\x7benv:ANTHROPIC_API_KEY\x7d"),
     ("tailscaleAuthKey", "$\x7benv:TAILSCALE_AUTH_KEY\x7d"),
     ("tailnetDnsName", "$\x7benv:TAILNET_DNS_NAME\x7d")] ++
    (if provider = "hetzner" then [("hcloudToken", "$\x7benv:HCLOUD_TOKEN\x7d")] else [])
  let perAgent : Dict (Dict String) := fetched.map (fun fi =>
    (fi.1.name,
      addRequiredSecretRefs fi.1.role []
        ((fi.2.plugins.map pluginRegistrySecretKeys).flatten ++
          (fi.2.deps.map depRegistrySecretKeys).flatten ++
          fi.2.requiredSecrets)
        [] []))
  (base, perAgent)

/-- The observable outcome of one `clawup setup` run: the file writes it
performed, and its result. -/
structure SetupOutcome where
  writes : List FileWrite
  result : Except SetupErr Unit
  deriving Repr

/-- The setup.ts pipeline over already-loaded inputs: fetch all identities,
resolve template variables, load `.env`, resolve secrets, and only then write
`clawup.yaml`, `.env.example` and `.gitignore`.  Every failure exits with no
file written. -/
def setupRun (m : ClawupManifest)
    (fetch : String → Except String IdentityManifest)
    (envFile : Option (Dict String)) : SetupOutcome :=
  match fetchAll m.agents fetch with
  | .error n => { writes := [], result := .error (.fetchFailed n) }
  | .ok fetched =>
    let auto := autoVarsOf m
    let names := allTemplateVarNames fetched
    let tv := fillTemplateVars m.templateVars names auto
    let missingTv := names.filter (fun n => !truthyStr (dget tv n))
    if missingTv.isEmpty = false then
      { writes := [], result := .error (.missingTemplateVars missingTv) }
    else
      match envFile with
      | none => { writes := [], result := .error .envFileMissing }
      | some envDict =>
        let expected := buildManifestSecrets m.provider fetched
        let mergedGlobal := mergeGlobalSecrets m.secrets expected.1
        let agents' := m.agents.map (fun a =>
          match dget expected.2 a.name with
          | some fresh => { a with secrets := mergeAgentSecrets a.secrets fresh }
          | none => a)
        let resolved := loadEnvSecrets mergedGlobal agents' envDict
        if resolved.missing.isEmpty = false then
          { writes := [], result := .error (.missingSecrets resolved.missing) }
        else
          { writes := [.manifestFile, .envExampleFile, .gitignoreFile],
            result := .ok () }

theorem fetchAll_error (agents : List AgentDef)
    (fetch : String → Except String IdentityManifest)
    (h : ∃ a ∈ agents, ∃ e, fetch a.identity = .error e) :
    ∃ n, fetchAll agents fetch = .error n := by
  induction agents with
  | nil =>
    obtain ⟨a, ha, _⟩ := h
    cases ha
  | cons a rest ih =>
    cases hf : fetch a.identity with
    | error e => exact ⟨a.name, by simp [fetchAll, hf]⟩
    | ok im =>
      obtain ⟨a', ha', e', he'⟩ := h
      rcases List.mem_cons.mp ha' with rfl | hmem
      · rw [hf] at he'
        cases he'
      · obtain ⟨n, hn⟩ := ih ⟨a', hmem, e', he'⟩
        exact ⟨n, by simp [fetchAll, hf, hn]⟩

/-- C3: if fetching the identity of any one agent fails, the whole run aborts
with a fetch error and performs *no* file write — neither the persisted
manifest, nor `.env.example`, nor any other file; the persisted state is left
unchanged. -/
theorem spec_C3 (m : ClawupManifest)
    (fetch : String → Except String IdentityManifest)
    (envFile : Option (Dict String))
    (h : ∃ a ∈ m.agents, ∃ e, fetch a.identity = .error e) :
    (setupRun m fetch envFile).writes = [] ∧
    ∃ n, (setupRun m fetch envFile).result = .error (.fetchFailed n) := by
  obtain ⟨n, hn⟩ := fetchAll_error m.agents fetch h
  unfold setupRun
  rw [hn]
  exact ⟨rfl, n, rfl⟩

/-- A one-agent manifest used to witness the abort-before-write discipline. -/
def sampleManifest : ClawupManifest :=
  { stackName := "dev", provider := "aws", region := "us-east-1",
    instanceType := "t3.medium", ownerName := "Boss",
    agents := [{ name := "agent-pm", displayName := "agent-pm", role := "pm",
                 identity := "./pm", volumeSize := 30 }] }

/-- A fetcher whose every identity resolution fails. -/
def failingFetch : String → Except String IdentityManifest :=
  fun _ => .error "manifest not found"

/-- C3 witness: a one-agent manifest whose identity fetch fails — no file is
written. -/
theorem spec_C3_witness :
    (∃ a ∈ sampleManifest.agents, ∃ e, failingFetch a.identity = .error e) ∧
    (setupRun sampleManifest failingFetch none).writes = [] ∧
    ∃ n, (setupRun sampleManifest failingFetch none).result
      = .error (.fetchFailed n) := by
  have h : ∃ a ∈ sampleManifest.agents, ∃ e, failingFetch a.identity = .error e :=
    ⟨_, List.mem_singleton.mpr rfl, "manifest not found", rfl⟩
  have hc := spec_C3 sampleManifest failingFetch none h
  exact ⟨h, hc.1, hc.2⟩

/-! ## resolveIdentityPaths (C10)

`resolveIdentityPaths` lives in `packages/cli/lib/config.ts`, which is not
under src/ (only its test suite is); it is modelled from the spec and pinned
by `config.test.ts`: identities that are relative filesystem paths (starting
with `./` or `../`) are resolved to absolute paths against the project root
(node's `path.resolve`), everything else — absolute paths, HTTPS git URLs,
SSH git URLs — is returned unchanged, and no other agent field changes.  The
embedding is pure, so the input manifest is never mutated by construction. -/

/-- Split a character list on `/`. -/
def splitSegsAux : List Char → List Char → List String
  | [], acc => [String.mk acc.reverse]
  | '/' :: rest, acc => String.mk acc.reverse :: splitSegsAux rest []
  | c :: rest, acc => splitSegsAux rest (c :: acc)

/-- The non-empty `/`-separated segments of a path. -/
def pathSegments (s : String) : List String :=
  (splitSegsAux s.data []).filter (fun seg => seg ≠ "")

/-- Resolve `.` and `..` segments left to right (node path normalization for
absolute paths). -/
def normalizeSegments (segs : List String) : List String :=
  segs.foldl
    (fun acc seg =>
      if seg = "." then acc
      else if seg = ".." then acc.dropLast
      else acc ++ [seg])
    []

/-- Join segments with `/`. -/
def joinSegments : List String → String
  | [] => ""
  | [s] => s
  | s :: rest => s ++ "/" ++ joinSegments rest

/-- Modelled from the spec: node's `path.resolve(root, rel)` for an absolute
`root` — concatenate the segments and normalize. -/
def pathResolve (root rel : String) : String :=
  "/" ++ joinSegments (normalizeSegments (pathSegments root ++ pathSegments rel))

/-- A relative filesystem path: starts with `./` or `../`. -/
def isRelativePath (s : String) : Bool :=
  match s.data with
  | '.' :: '/' :: _ => true
  | '.' :: '.' :: '/' :: _ => true
  | _ => false

/-- Modelled from the spec: resolve one identity source string against the
project root — relative paths become absolute, everything else is unchanged. -/
def resolveIdentitySource (projectRoot idt : String) : String :=
  if isRelativePath idt then pathResolve projectRoot idt else idt

/-- Modelled from the spec: `resolveIdentityPaths(manifest, projectRoot)` —
return a manifest whose agents' identity sources are resolved; all other
fields are untouched. -/
def resolveIdentityPaths (m : ClawupManifest) (projectRoot : String) : ClawupManifest :=
  { m with
    agents := m.agents.map
      (fun a => { a with identity := resolveIdentitySource projectRoot a.identity }) }

theorem pathResolve_head (root rel : String) :
    (pathResolve root rel).data.head? = some '/' := by
  unfold pathResolve
  rw [String.data_append]
  rfl

theorem isRelativePath_https (rest : String) :
    isRelativePath ("https://" ++ rest) = false := by
  unfold isRelativePath
  rw [String.data_append]
  rfl

theorem isRelativePath_ssh (rest : String) :
    isRelativePath ("git@" ++ rest) = false := by
  unfold isRelativePath
  rw [String.data_append]
  rfl

theorem forall₂_self_map {α β : Type u} (f : α → β) (R : α → β → Prop)
    (l : List α) (h : ∀ a ∈ l, R a (f a)) : List.Forall₂ R l (l.map f) := by
  induction l with
  | nil => exact List.Forall₂.nil
  | cons x xs ih =>
    exact List.Forall₂.cons (h x (List.mem_cons_self x xs))
      (ih fun a ha => h a (List.mem_cons_of_mem x ha))

/-- C10: `resolveIdentityPaths` resolves every relative identity source (`./`
or `../`) to an absolute path against the project root, leaves every other
identity source — absolute paths, HTTPS git URLs, SSH git URLs — unchanged,
preserves every other agent field and every other manifest field, and (being
a pure function from the input to a fresh manifest value) does not mutate its
input. -/
theorem spec_C10 (m : ClawupManifest) (projectRoot : String) :
    (resolveIdentityPaths m projectRoot).stackName = m.stackName ∧
    (resolveIdentityPaths m projectRoot).provider = m.provider ∧
    (resolveIdentityPaths m projectRoot).region = m.region ∧
    (resolveIdentityPaths m projectRoot).instanceType = m.instanceType ∧
    (resolveIdentityPaths m projectRoot).ownerName = m.ownerName ∧
    (resolveIdentityPaths m projectRoot).templateVars = m.templateVars ∧
    (resolveIdentityPaths m projectRoot).secrets = m.secrets ∧
    (∀ rest, resolveIdentitySource projectRoot ("https://" ++ rest)
      = "https://" ++ rest) ∧
    (∀ rest, resolveIdentitySource projectRoot ("git@" ++ rest)
      = "git@" ++ rest) ∧
    List.Forall₂
      (fun a b =>
        b.name = a.name ∧ b.displayName = a.displayName ∧ b.role = a.role ∧
        b.volumeSize = a.volumeSize ∧ b.secrets = a.secrets ∧
        b.plugins = a.plugins ∧ b.envVars = a.envVars ∧
        (isRelativePath a.identity = true →
          b.identity = pathResolve projectRoot a.identity ∧
          b.identity.data.head? = some '/') ∧
        (isRelativePath a.identity = false → b.identity = a.identity))
      m.agents (resolveIdentityPaths m projectRoot).agents := by
  refine ⟨rfl, rfl, rfl, rfl, rfl, rfl, rfl,
    fun rest => by simp [resolveIdentitySource, isRelativePath_https],
    fun rest => by simp [resolveIdentitySource, isRelativePath_ssh],
    ?_⟩
  apply forall₂_self_map
  intro a _
  refine ⟨rfl, rfl, rfl, rfl, rfl, rfl, rfl, fun hrel => ⟨?_, ?_⟩, fun hrel => ?_⟩
  · simp [resolveIdentitySource, hrel]
  · simp only [resolveIdentitySource, hrel, if_true]
    exact pathResolve_head projectRoot a.identity
  · simp [resolveIdentitySource, hrel]

/-- A concrete manifest from the `resolveIdentityPaths` test suite. -/
def mixPathsManifest : ClawupManifest :=
  { stackName := "test-stack", provider := "aws", region := "us-east-1",
    instanceType := "t3.medium", ownerName := "tester",
    agents :=
      [{ name := "agent-0", displayName := "Agent 0", role := "eng",
         identity := "./identities/pm", volumeSize := 30 },
       { name := "agent-1", displayName := "Agent 1", role := "eng",
         identity := "https://github.com/org/identities#eng", volumeSize := 30 },
       { name := "agent-2", displayName := "Agent 2", role := "eng",
         identity := "../shared/qa", volumeSize := 30 },
       { name := "agent-3", displayName := "Agent 3", role := "eng",
         identity := "/abs/path/tester", volumeSize := 30 },
       { name := "agent-4", displayName := "Agent 4", role := "eng",
         identity := "git@github.com:org/ids#ops", volumeSize := 30 }] }

/-- C10 witness: the frame/effect statement at the test suite's concrete mixed
manifest, plus the concrete resolved identities. -/
theorem spec_C10_witness :
    ((resolveIdentityPaths mixPathsManifest "/home/user/my-project").agents.map
        (fun a => a.identity)
      = ["/home/user/my-project/identities/pm",
         "https://github.com/org/identities#eng",
         "/home/user/shared/qa",
         "/abs/path/tester",
         "git@github.com:org/ids#ops"]) ∧
    List.Forall₂
      (fun a b =>
        b.name = a.name ∧ b.displayName = a.displayName ∧ b.role = a.role ∧
        b.volumeSize = a.volumeSize ∧ b.secrets = a.secrets ∧
        b.plugins = a.plugins ∧ b.envVars = a.envVars ∧
        (isRelativePath a.identity = true →
          b.identity = pathResolve "/home/user/my-project" a.identity ∧
          b.identity.data.head? = some '/') ∧
        (isRelativePath a.identity = false → b.identity = a.identity))
      mixPathsManifest.agents
      (resolveIdentityPaths mixPathsManifest "/home/user/my-project").agents :=
  ⟨by decide, (spec_C10 mixPathsManifest "/home/user/my-project").2.2.2.2.2.2.2.2.2⟩

end Clawup